import Mathlib

/-!
Verification of the temporal/dimensional query resolver and the comparative
OLAP analysis engine of the MyAI repository.

The Python sources embedded here are:
* `controllers/analysis_controller.py` — `_parse_query` (the temporal cascade
  resolver and dimension classifier), `analyze_query` (the entity dispatch),
  `_perform_sql_period_analysis` (period analysis and the percent-delta
  sentinel), `_analyze_specific_customer_query` and friends (entity lookup),
  `_check_customer_exists`, `_get_dimension_values`.
* `models/data_manager.py` — `execute_query`, `get_period_comparison`,
  `get_driver_analysis`, `get_drill_down_analysis`.

Modelling conventions:
* Python `datetime` values are `Date` records of integer year/month/day with
  Python's validity range (years 1–9999); constructions that would raise
  (`ValueError` / `OverflowError`) are `none`.
* Python floats are modelled as exact rationals `ℚ`; the `float('inf')` /
  `float('-inf')` sentinels are constructors of `PercentDelta`.
* The regex `\d` is modelled as the ASCII digits and `\s` as the ASCII
  whitespace characters (all inputs of interest are ASCII/CJK).
* SQL aggregation over the star schema is modelled over a list of fact rows
  that carry their dimension values directly (the repository's fact rows
  resolve to exactly one row per dimension table, so the joins are total).
* A store (SQLite) connection that can fail is `Except String (List Fact)`;
  `execute_query` masks a failed query as an empty result frame, exactly as
  the Python `try/except` does.
-/

namespace MyAI

/-- A calendar date, as Python's `datetime.date` (year 1–9999). -/
structure Date where
  y : ℤ
  m : ℤ
  day : ℤ
deriving DecidableEq, Repr

/-- Order-embedding rank for valid dates (month 1–12, day 1–31). -/
def Date.rank (d : Date) : ℤ := (d.y * 12 + (d.m - 1)) * 31 + (d.day - 1)

/-- Date order via the rank (agrees with calendar order on valid dates). -/
def Date.le (a b : Date) : Prop := a.rank ≤ b.rank

instance (a b : Date) : Decidable (Date.le a b) := by
  unfold Date.le; infer_instance

/-- Gregorian leap-year test, as Python's `calendar`/`datetime`. -/
def isLeap (y : ℤ) : Bool := y % 4 == 0 && (y % 100 != 0 || y % 400 == 0)

/-- Days in a month, as Python's `datetime`. -/
def daysInMonth (y m : ℤ) : ℤ :=
  if m = 2 then (if isLeap y then 29 else 28)
  else if m = 4 ∨ m = 6 ∨ m = 9 ∨ m = 11 then 30
  else 31

/-- Python `datetime(y, m, d)`: `none` exactly when Python raises `ValueError`. -/
def mkDate (y m d : ℤ) : Option Date :=
  if 1 ≤ y ∧ y ≤ 9999 ∧ 1 ≤ m ∧ m ≤ 12 ∧ 1 ≤ d ∧ d ≤ daysInMonth y m then
    some ⟨y, m, d⟩
  else none

/-- Python `datetime(y, m, 1) + relativedelta(months=k)`: first-of-month shift, as
`dateutil.relativedelta` (rolls the year; `none` when the result leaves
Python's year range, where Python raises). -/
def firstOfMonthShift (y m k : ℤ) : Option Date :=
  if 1 ≤ y + (m - 1 + k).ediv 12 ∧ y + (m - 1 + k).ediv 12 ≤ 9999 then
    some ⟨y + (m - 1 + k).ediv 12, (m - 1 + k).emod 12 + 1, 1⟩
  else none

/-- Python `d - timedelta(days=1)` (`none` on Python's `date.min`, where it
overflows). -/
def subDay (d : Date) : Option Date :=
  if 2 ≤ d.day then some ⟨d.y, d.m, d.day - 1⟩
  else if 2 ≤ d.m then some ⟨d.y, d.m - 1, daysInMonth d.y (d.m - 1)⟩
  else if 2 ≤ d.y then some ⟨d.y - 1, 12, 31⟩
  else none

/-- The calendar-month window `[datetime(y,m,1), datetime(y,m,1)+1mo-1day]`,
exactly as every month branch of `_parse_query` builds it. -/
def monthWin (y m : ℤ) : Option (Date × Date) :=
  match mkDate y m 1 with
  | none => none
  | some s =>
    match firstOfMonthShift y m 1 with
    | none => none
    | some n =>
      match subDay n with
      | none => none
      | some e => some (s, e)

/-- The previous-calendar-month window
`[datetime(y,m,1)-1mo, datetime(y,m,1)-1day]` used by the one-match month
branches of `_parse_query`. -/
def prevMonthWin (y m : ℤ) : Option (Date × Date) :=
  match firstOfMonthShift y m (-1) with
  | none => none
  | some s =>
    match subDay ⟨y, m, 1⟩ with
    | none => none
    | some e => some (s, e)

/-- The calendar-year window `[datetime(y,1,1), datetime(y,12,31)]` of the
year branches of `_parse_query`. -/
def yearWin (y : ℤ) : Option (Date × Date) :=
  match mkDate y 1 1 with
  | none => none
  | some s =>
    match mkDate y 12 31 with
    | none => none
    | some e => some (s, e)

/-- The quarter window built by the quarter branches of `_parse_query`:
start month `3*(q-1)+1`, end `start + 3 months - 1 day`. -/
def quarterWin (y q : ℤ) : Option (Date × Date) :=
  match mkDate y (3 * (q - 1) + 1) 1 with
  | none => none
  | some s =>
    match firstOfMonthShift y (3 * (q - 1) + 1) 3 with
    | none => none
    | some n =>
      match subDay n with
      | none => none
      | some e => some (s, e)

/-! ### Text scanning: the regex families of `_parse_query`

Each Python `re.findall` is modelled by a matcher that either matches a
pattern occurrence at the head of the character list (returning the captures
and the remainder after the consumed text) or fails, scanned left to right,
non-overlapping, exactly as `re.findall` does. -/

/-- Digit value of an ASCII digit character. -/
def dv (c : Char) : ℤ := (c.toNat : ℤ) - 48

/-- Value of four digit characters, as Python `int()` on the capture. -/
def val4 (a b c d : Char) : ℤ := 1000 * dv a + 100 * dv b + 10 * dv c + dv d

/-- Left-to-right non-overlapping scan: try the matcher at every position,
resuming after a match, as `re.findall`.  Fuel is the text length (every
matcher consumes at least one character). -/
def scanFA (m : List Char → Option (α × List Char)) :
    ℕ → List Char → List α
  | 0, _ => []
  | _ + 1, [] => []
  | f + 1, c :: rest =>
    match m (c :: rest) with
    | some (a, rem) => a :: scanFA m f rem
    | none => scanFA m f rest

def findAll (m : List Char → Option (α × List Char)) (cs : List Char) :
    List α :=
  scanFA m cs.length cs

/-- Matcher for `(\d{4})`, then `/` or `-`, then `(\d{1,2})` (the
`YYYY/MM` and `YYYY-MM` family; `\d{1,2}` is greedy). -/
def matchSlash : List Char → Option ((ℤ × ℤ) × List Char)
  | a :: b :: c :: d :: s :: rest =>
    if a.isDigit && b.isDigit && c.isDigit && d.isDigit &&
        (s == '/' || s == '-') then
      match rest with
      | e :: f :: rest2 =>
        if e.isDigit then
          if f.isDigit then some ((val4 a b c d, 10 * dv e + dv f), rest2)
          else some ((val4 a b c d, dv e), f :: rest2)
        else none
      | [e] => if e.isDigit then some ((val4 a b c d, dv e), []) else none
      | [] => none
    else none
  | _ => none

/-- The `\d{1,2}月` alternative of the year pattern's negative lookahead. -/
def ymAhead : List Char → Bool
  | x :: y :: z :: _ =>
    (x.isDigit && y.isDigit && z == '月') || (x.isDigit && y == '月')
  | [x, y] => x.isDigit && y == '月'
  | _ => false

/-- The `Q\d` alternative of the year pattern's negative lookahead. -/
def qAhead : List Char → Bool
  | x :: y :: _ => x == 'Q' && y.isDigit
  | _ => false

/-- Matcher for `(\d{4})年(?!\d{1,2}月|Q\d)` (year-only mentions). -/
def matchYear : List Char → Option (ℤ × List Char)
  | a :: b :: c :: d :: n :: rest =>
    if a.isDigit && b.isDigit && c.isDigit && d.isDigit && n == '年' &&
        !(ymAhead rest || qAhead rest) then
      some (val4 a b c d, rest)
    else none
  | _ => none

/-- Matcher for `(\d{4})年(\d{1,2})月` (explicit `YYYY年MM月` phrases;
`\d{1,2}` greedy with backtracking). -/
def matchYM : List Char → Option ((ℤ × ℤ) × List Char)
  | a :: b :: c :: d :: n :: rest =>
    if a.isDigit && b.isDigit && c.isDigit && d.isDigit && n == '年' then
      match rest with
      | e :: f :: g :: rest3 =>
        if e.isDigit && f.isDigit && g == '月' then
          some ((val4 a b c d, 10 * dv e + dv f), rest3)
        else if e.isDigit && f == '月' then
          some ((val4 a b c d, dv e), g :: rest3)
        else none
      | [e, f] =>
        if e.isDigit && f == '月' then some ((val4 a b c d, dv e), [])
        else none
      | _ => none
    else none
  | _ => none

/-- The `\d{4}年` test of the pure-quarter pattern's negative lookahead. -/
def year4Ahead : List Char → Bool
  | a :: b :: c :: d :: e :: _ =>
    a.isDigit && b.isDigit && c.isDigit && d.isDigit && e == '年'
  | _ => false

/-- Matcher for `Q(\d)(?!\d{4}年)` (the "pure quarter" pattern; note the
source uses a negative lookahead after the digit, not a lookbehind before
`Q`). -/
def matchPureQ : List Char → Option (ℤ × List Char)
  | x :: y :: rest =>
    if x == 'Q' && y.isDigit && !year4Ahead rest then some (dv y, rest)
    else none
  | _ => none

/-- Matcher for `(\d{4})年Q(\d)`. -/
def matchYQ : List Char → Option ((ℤ × ℤ) × List Char)
  | a :: b :: c :: d :: n :: qc :: e :: rest =>
    if a.isDigit && b.isDigit && c.isDigit && d.isDigit && n == '年' &&
        qc == 'Q' && e.isDigit then
      some ((val4 a b c d, dv e), rest)
    else none
  | _ => none

/-- The relative-year tokens of `(去年|前年|今年)Q(\d)`. -/
inductive RelTag
  | lastYear
  | beforeLast
  | thisYear
deriving DecidableEq, Repr

/-- Matcher for `(去年|前年|今年)Q(\d)`. -/
def matchRel : List Char → Option ((RelTag × ℤ) × List Char)
  | t1 :: t2 :: qc :: d :: rest =>
    if t1 == '去' && t2 == '年' && qc == 'Q' && d.isDigit then
      some ((RelTag.lastYear, dv d), rest)
    else if t1 == '前' && t2 == '年' && qc == 'Q' && d.isDigit then
      some ((RelTag.beforeLast, dv d), rest)
    else if t1 == '今' && t2 == '年' && qc == 'Q' && d.isDigit then
      some ((RelTag.thisYear, dv d), rest)
    else none
  | _ => none

/-- Python `str.replace(old, new)`: replace every non-overlapping occurrence
left to right, continuing after the replacement.  Fuel is the text length. -/
def replaceAllF (old nw : List Char) : ℕ → List Char → List Char
  | 0, cs => cs
  | _ + 1, [] => []
  | f + 1, c :: rest =>
    if old.isPrefixOf (c :: rest) then
      nw ++ replaceAllF old nw f ((c :: rest).drop old.length)
    else c :: replaceAllF old nw f rest

def replaceAll (old nw cs : List Char) : List Char :=
  replaceAllF old nw cs.length cs

/-- The CJK month substitutions of `_parse_query` (`"年七月" -> "年07月"`),
in the source dictionary's insertion order. -/
def monthPairs : List (List Char × List Char) :=
  [("年一月".toList, "年01月".toList), ("年二月".toList, "年02月".toList),
   ("年三月".toList, "年03月".toList), ("年四月".toList, "年04月".toList),
   ("年五月".toList, "年05月".toList), ("年六月".toList, "年06月".toList),
   ("年七月".toList, "年07月".toList), ("年八月".toList, "年08月".toList),
   ("年九月".toList, "年09月".toList), ("年十月".toList, "年10月".toList),
   ("年十一月".toList, "年11月".toList), ("年十二月".toList, "年12月".toList)]

/-- The quarter-spelling substitutions of `_parse_query`
(`"季1" -> "Q1"`, `"q1" -> "Q1"`), in the source dictionary's order. -/
def quarterPairs : List (List Char × List Char) :=
  [("季1".toList, "Q1".toList), ("季2".toList, "Q2".toList),
   ("季3".toList, "Q3".toList), ("季4".toList, "Q4".toList),
   ("q1".toList, "Q1".toList), ("q2".toList, "Q2".toList),
   ("q3".toList, "Q3".toList), ("q4".toList, "Q4".toList)]

/-- The token normalizer of `_parse_query`: the month substitutions, then
the quarter substitutions. -/
def normalizeQuery (cs : List Char) : List Char :=
  (monthPairs ++ quarterPairs).foldl (fun acc p => replaceAll p.1 p.2 acc) cs

/-- Substring containment, as Python's `in` on strings. -/
def containsSub (needle hay : List Char) : Bool :=
  match hay with
  | [] => needle.isEmpty
  | _ :: rest => needle.isPrefixOf hay || containsSub needle rest

/-! ### Number formatting for the period labels -/

def digitChar (n : ℕ) : Char := Char.ofNat (48 + n % 10)

def natToStrAux : ℕ → ℕ → List Char
  | 0, _ => []
  | f + 1, n =>
    if n < 10 then [digitChar n]
    else natToStrAux f (n / 10) ++ [digitChar (n % 10)]

/-- Decimal rendering of a natural number, as Python `f"{n}"`. -/
def natToStr (n : ℕ) : String := ⟨natToStrAux (n + 1) n⟩

/-- Python `f"{y}"` for the (nonnegative) year/quarter numbers. -/
def yStr (y : ℤ) : String := natToStr y.toNat

/-- Python `f"{m:02d}"` for the zero-padded month numbers (all < 100). -/
def m2Str (m : ℤ) : String := ⟨[digitChar (m.toNat / 10), digitChar m.toNat]⟩

/-! ### The temporal cascade branches of `_parse_query` -/

/-- Two resolved time windows plus the period label. -/
structure Period where
  curStart : Date
  curEnd : Date
  lastStart : Date
  lastEnd : Date
  label : String
deriving DecidableEq, Repr

/-- The source `_parse_query` pins the reference date internally:
`today = datetime(2025, 8, 31)` ("為了演示穩定" — fixed for demo
stability).  It is not a parameter of the function. -/
def fixedToday : Date := ⟨2025, 8, 31⟩

/-- Assemble a `Period` from the current and comparison windows (each
source branch constructs both windows, then the label). -/
def combineWins (w1 w2 : Option (Date × Date)) (lab : String) :
    Option Period :=
  match w1 with
  | none => none
  | some (cs, ce) =>
    match w2 with
    | none => none
    | some (ls, le) => some ⟨cs, ce, ls, le, lab⟩

/-- Two `YYYY/MM`-style (or `YYYY年MM月`-style) matches: first is current,
second is comparison; identical window and label construction in both source
arms. -/
def twoMonthBranch (a b : ℤ × ℤ) : Option Period :=
  combineWins (monthWin a.1 a.2) (monthWin b.1 b.2)
    (yStr a.1 ++ "年" ++ m2Str a.2 ++ "月 vs " ++
      yStr b.1 ++ "年" ++ m2Str b.2 ++ "月")

/-- One month match: current month vs the previous calendar month. -/
def oneMonthBranch (a : ℤ × ℤ) : Option Period :=
  combineWins (monthWin a.1 a.2) (prevMonthWin a.1 a.2)
    (yStr a.1 ++ "年" ++ m2Str a.2 ++ "月 vs 上月")

/-- Two year-only matches. -/
def twoYearBranch (a b : ℤ) : Option Period :=
  combineWins (yearWin a) (yearWin b)
    (yStr a ++ "年 vs " ++ yStr b ++ "年")

/-- One year-only match: that year vs the previous year. -/
def oneYearBranch (a : ℤ) : Option Period :=
  combineWins (yearWin a) (yearWin (a - 1)) (yStr a ++ "年 vs 去年")

/-- Two pure-quarter matches: both anchored to the fixed reference year. -/
def twoPureQBranch (a b : ℤ) : Option Period :=
  combineWins (quarterWin fixedToday.y a) (quarterWin fixedToday.y b)
    ("Q" ++ yStr a ++ " vs Q" ++ yStr b)

/-- One pure-quarter match: that quarter of the fixed reference year vs the
previous quarter (rolling into Q4 of the prior year from Q1). -/
def onePureQBranch (a : ℤ) : Option Period :=
  combineWins (quarterWin fixedToday.y a)
    (quarterWin (if a = 1 then fixedToday.y - 1 else fixedToday.y)
      (if a = 1 then 4 else a - 1))
    ("Q" ++ yStr a ++ " vs Q" ++ yStr (if a = 1 then 4 else a - 1))

/-- Two `YYYY年Q<d>` matches. -/
def twoYQBranch (a b : ℤ × ℤ) : Option Period :=
  combineWins (quarterWin a.1 a.2) (quarterWin b.1 b.2)
    (yStr a.1 ++ "年Q" ++ yStr a.2 ++ " vs " ++
      yStr b.1 ++ "年Q" ++ yStr b.2)

/-- The comparison year for a relative-year token:
`去年 -> current − 1`, `前年 -> current − 2`, `今年 -> current`. -/
def relYearOf (y : ℤ) : RelTag → ℤ
  | RelTag.lastYear => y - 1
  | RelTag.beforeLast => y - 2
  | RelTag.thisYear => y

/-- One `YYYY年Q<d>` match plus a relative-year quarter mention. -/
def yqRelBranch (a : ℤ × ℤ) (r : RelTag × ℤ) : Option Period :=
  combineWins (quarterWin a.1 a.2) (quarterWin (relYearOf a.1 r.1) r.2)
    (yStr a.1 ++ "年Q" ++ yStr a.2 ++ " vs " ++
      yStr (relYearOf a.1 r.1) ++ "年Q" ++ yStr r.2)

/-- One `YYYY年Q<d>` match alone: vs the previous quarter. -/
def oneYQBranch (a : ℤ × ℤ) : Option Period :=
  combineWins (quarterWin a.1 a.2)
    (quarterWin (if a.2 = 1 then a.1 - 1 else a.1)
      (if a.2 = 1 then 4 else a.2 - 1))
    (yStr a.1 ++ "年Q" ++ yStr a.2 ++ " vs " ++
      yStr (if a.2 = 1 then a.1 - 1 else a.1) ++ "年Q" ++
      yStr (if a.2 = 1 then 4 else a.2 - 1))

/-- Python `d + relativedelta(months=1) - timedelta(days=1)` for a first-of-month
date: the end of that calendar month. -/
def monthEndAfter (d : Date) : Option Date :=
  match firstOfMonthShift d.y d.m 1 with
  | none => none
  | some n => subDay n

/-- The quarter-family fallback: current calendar quarter of the fixed
reference date vs the previous quarter. -/
def quarterFallback : Option Period :=
  match mkDate fixedToday.y (3 * ((fixedToday.m - 1).ediv 3) + 1) 1 with
  | none => none
  | some cs =>
    match firstOfMonthShift cs.y cs.m 3 with
    | none => none
    | some n =>
      match subDay n with
      | none => none
      | some ce =>
        match firstOfMonthShift cs.y cs.m (-3) with
        | none => none
        | some ls =>
          match subDay cs with
          | none => none
          | some le =>
            some ⟨cs, ce, ls, le,
              yStr cs.y ++ "年Q" ++ yStr ((cs.m - 1).ediv 3 + 1) ++ " vs 上季"⟩

/-- The global default initialized at the top of `_parse_query` (kept when
no temporal pattern matches): current month of the fixed reference date vs
the previous month; the label's month is not zero-padded here. -/
def defaultPeriod : Option Period :=
  match mkDate fixedToday.y fixedToday.m 1 with
  | none => none
  | some cs =>
    match monthEndAfter cs with
    | none => none
    | some ce =>
      match subDay cs with
      | none => none
      | some p =>
        match mkDate p.y p.m 1 with
        | none => none
        | some ls =>
          match monthEndAfter ls with
          | none => none
          | some le =>
            some ⟨cs, ce, ls, le,
              yStr cs.y ++ "年" ++ natToStr cs.m.toNat ++ "月 vs 上月"⟩

/-- The quarter-family guard `"Q" in processed or "季" in processed`. -/
def hasQuarterMarker (cs : List Char) : Bool :=
  cs.contains 'Q' || containsSub "季".toList cs

/-- The full temporal cascade of `_parse_query` over the normalized query:
slash/dash pairs, then year-only, then `YYYY年MM月`, then the quarter
family, else the global default. -/
def resolvePeriod (cs : List Char) : Option Period :=
  match findAll matchSlash cs with
  | a :: b :: _ => twoMonthBranch a b
  | [a] => oneMonthBranch a
  | [] =>
    match findAll matchYear cs with
    | a :: b :: _ => twoYearBranch a b
    | [a] => oneYearBranch a
    | [] =>
      match findAll matchYM cs with
      | a :: b :: _ => twoMonthBranch a b
      | [a] => oneMonthBranch a
      | [] =>
        if hasQuarterMarker cs then
          match findAll matchPureQ cs with
          | a :: b :: _ => twoPureQBranch a b
          | [a] => onePureQBranch a
          | [] =>
            match findAll matchYQ cs, findAll matchRel cs with
            | a :: b :: _, _ => twoYQBranch a b
            | [a], r :: _ => yqRelBranch a r
            | [a], [] => oneYQBranch a
            | [], _ => quarterFallback
        else defaultPeriod

/-! ### Dimension classification -/

inductive Dim
  | product
  | staff
  | customer
  | region
deriving DecidableEq, Repr

def hasAnyWord (q : List Char) (ws : List (List Char)) : Bool :=
  ws.any (fun w => containsSub w q)

/-- The keyword sets of `_parse_query`'s dimension classifier, in source
priority order (product, staff, customer, region; default product). -/
def classifyDim (q : List Char) : Dim × String :=
  if hasAnyWord q ["產品".toList, "商品".toList, "item".toList,
      "product".toList] then (Dim.product, "產品")
  else if hasAnyWord q ["業務員".toList, "銷售員".toList, "staff".toList,
      "sales".toList] then (Dim.staff, "業務員")
  else if hasAnyWord q ["客戶".toList, "customer".toList,
      "client".toList] then (Dim.customer, "客戶")
  else if hasAnyWord q ["地區".toList, "區域".toList, "region".toList,
      "area".toList] then (Dim.region, "地區")
  else (Dim.product, "產品")

/-- The dictionary `_parse_query` returns (dates kept as dates; the
`strftime('%Y-%m-%d')` rendering is presentation only). -/
structure ParsedResult where
  curStart : Date
  curEnd : Date
  lastStart : Date
  lastEnd : Date
  periodText : String
  dimension : Dim
  dimensionText : String
deriving DecidableEq, Repr

/-- The resolver `_parse_query`: normalize, resolve the temporal cascade, classify the
dimension (over the raw query, as the source does).  `none` exactly when the
Python function raises. -/
def parseQuery (query : String) : Option ParsedResult :=
  (resolvePeriod (normalizeQuery query.toList)).map (fun p =>
    ⟨p.curStart, p.curEnd, p.lastStart, p.lastEnd, p.label,
      (classifyDim query.toList).1, (classifyDim query.toList).2⟩)

/-- The resolver `_parse_query` run at ambient (process-clock) date `now`: the source
never reads the clock — line 34 pins `today = datetime(2025, 8, 31)` — so
the run is independent of `now`.  The phantom parameter makes that
dependence (or its absence) statable. -/
def parseQueryClock (_now : Date) (query : String) : Option ParsedResult :=
  parseQuery query

/-! ### The OLAP execution engine (`models/data_manager.py`)

Fact rows carry their dimension values directly (every fact row of the star
schema resolves to exactly one row per dimension table).  `date` is a day
index; the SQL `t.date BETWEEN a AND b` over `YYYY-MM-DD` text is interval
membership in that order. -/

structure Fact where
  product : String
  customer : String
  staff : String
  region : String
  date : ℤ
  amount : ℚ
deriving DecidableEq, Repr

/-- An inclusive date window, as passed to the store queries. -/
structure Win where
  lo : ℤ
  hi : ℤ
deriving DecidableEq, Repr

def inWin (w : Win) (d : ℤ) : Bool := decide (w.lo ≤ d ∧ d ≤ w.hi)

/-- The `dim_map` of `data_manager.py`: which dimension value a fact row
groups by. -/
def dimSel : Dim → Fact → String
  | Dim.product => Fact.product
  | Dim.staff => Fact.staff
  | Dim.customer => Fact.customer
  | Dim.region => Fact.region

/-- SQL `COALESCE(SUM(CASE WHEN t.date BETWEEN a AND b THEN f.amount ELSE 0
END), 0)` over all fact rows. -/
def sumIn (fs : List Fact) (w : Win) : ℚ :=
  (fs.map (fun f => if inWin w f.date then f.amount else 0)).sum

/-- The `COUNT(*)` of fact rows falling in either window (the no-data
check query of `get_period_comparison`). -/
def countEither (fs : List Fact) (cw lw : Win) : ℕ :=
  (fs.filter (fun f => inWin cw f.date || inWin lw f.date)).length

/-- Distinct dimension values in first-occurrence order (`GROUP BY`). -/
def groupKeys (sel : Fact → String) (fs : List Fact) : List String :=
  fs.foldl (fun acc f => if (sel f) ∈ acc then acc else acc ++ [sel f]) []

/-- Per-group windowed sum. -/
def groupSum (sel : Fact → String) (v : String) (fs : List Fact) (w : Win) :
    ℚ :=
  ((fs.filter (fun f => sel f == v)).map
    (fun f => if inWin w f.date then f.amount else 0)).sum

/-- One row of a driver/contribution analysis: dimension value, 本期銷售額,
前期銷售額, 差異. -/
structure DriverRow where
  valueLabel : String
  sumCurrent : ℚ
  sumComparison : ℚ
  delta : ℚ
deriving DecidableEq, Repr

/-- The `ORDER BY ABS("差異") DESC` order as a sorting relation. -/
def absDeltaGE (a b : DriverRow) : Prop := |b.delta| ≤ |a.delta|

instance : DecidableRel absDeltaGE := fun a b => by
  unfold absDeltaGE; infer_instance

instance : IsTotal DriverRow absDeltaGE :=
  ⟨fun a b => le_total (|b.delta|) (|a.delta|)⟩

instance : IsTrans DriverRow absDeltaGE :=
  ⟨fun _ _ _ h1 h2 => le_trans h2 h1⟩

/-- The grouped rows of the `get_driver_analysis` SQL: group by dimension
value, windowed sums, `差異 = 本期 - 前期`, `HAVING ABS("差異") > 0`,
`ORDER BY ABS("差異") DESC`. -/
def driverRows (fs : List Fact) (cw lw : Win) (sel : Fact → String) :
    List DriverRow :=
  (((groupKeys sel fs).map (fun v =>
      DriverRow.mk v (groupSum sel v fs cw) (groupSum sel v fs lw)
        (groupSum sel v fs cw - groupSum sel v fs lw))).filter
    (fun r => decide (0 < |r.delta|))).insertionSort absDeltaGE

/-- The grouped rows of the `get_drill_down_analysis` SQL: restricted to
fact rows whose primary-dimension value equals `pv`, grouped by the drill
dimension, `ORDER BY ABS("差異") DESC` — the drill-down SQL has no
`HAVING` clause. -/
def drillRows (fs : List Fact) (cw lw : Win) (psel : Fact → String)
    (pv : String) (dsel : Fact → String) : List DriverRow :=
  (((groupKeys dsel (fs.filter (fun f => psel f == pv))).map (fun v =>
      DriverRow.mk v
        (groupSum dsel v (fs.filter (fun f => psel f == pv)) cw)
        (groupSum dsel v (fs.filter (fun f => psel f == pv)) lw)
        (groupSum dsel v (fs.filter (fun f => psel f == pv)) cw -
          groupSum dsel v (fs.filter (fun f => psel f == pv)) lw))
    )).insertionSort absDeltaGE

instance {ε α : Type} [DecidableEq ε] [DecidableEq α] :
    DecidableEq (Except ε α) := fun x y =>
  match x, y with
  | Except.error a, Except.error b =>
    if h : a = b then Decidable.isTrue (by rw [h])
    else Decidable.isFalse (by simp [h])
  | Except.ok a, Except.ok b =>
    if h : a = b then Decidable.isTrue (by rw [h])
    else Decidable.isFalse (by simp [h])
  | Except.error _, Except.ok _ => Decidable.isFalse (by simp)
  | Except.ok _, Except.error _ => Decidable.isFalse (by simp)

/-- A store connection: either the fact table or a failing connection. -/
abbrev Conn := Except String (List Fact)

/-- The store's `DataManager.execute_query`: run the query, but catch any failure and
return an *empty* result frame — the store error is masked, not
propagated. -/
def runStore (conn : Conn) (f : List Fact → List ρ) : List ρ :=
  match conn with
  | Except.ok fs => f fs
  | Except.error _ => []

/-- The exceptions `data_manager.py` raises (messages abbreviated to their
fixed prefixes; the dynamic date/dimension suffixes are presentational). -/
inductive DbErr
  | noData (msg : String)
  | keyError
deriving DecidableEq, Repr

def headBothZero : List (ℚ × ℚ) → Bool
  | [] => false
  | (c, l) :: _ => decide (c = 0 ∧ l = 0)

/-- The store operation `get_period_comparison`: one aggregate row of the two windowed totals;
when both are zero (or the frame is empty), a count query decides between
the no-data `ValueError` and a valid zero result.  (On a failed connection
the count frame is also empty, and the column access raises a pandas
`KeyError`.) -/
def getPeriodComparison (conn : Conn) (cw lw : Win) :
    Except DbErr (List (ℚ × ℚ)) :=
  if (runStore conn (fun fs => [(sumIn fs cw, sumIn fs lw)])).isEmpty ||
      headBothZero (runStore conn (fun fs => [(sumIn fs cw, sumIn fs lw)])) then
    match runStore conn (fun fs => [countEither fs cw lw]) with
    | [] => Except.error DbErr.keyError
    | n :: _ =>
      if n = 0 then Except.error (DbErr.noData "指定時間範圍內無銷售數據")
      else Except.ok (runStore conn (fun fs => [(sumIn fs cw, sumIn fs lw)]))
  else Except.ok (runStore conn (fun fs => [(sumIn fs cw, sumIn fs lw)]))

/-- The store operation `get_driver_analysis`: raises the no-data `ValueError` exactly when the
grouped-and-filtered frame is empty. -/
def getDriverAnalysis (conn : Conn) (cw lw : Win) (dim : Dim) :
    Except DbErr (List DriverRow) :=
  if (runStore conn (fun fs => driverRows fs cw lw (dimSel dim))).isEmpty then
    Except.error (DbErr.noData "指定時間範圍內無維度的銷售數據")
  else Except.ok (runStore conn (fun fs => driverRows fs cw lw (dimSel dim)))

/-- The store operation `get_drill_down_analysis`: returns the query result directly (no
no-data check, no `HAVING` filter). -/
def getDrillDownAnalysis (conn : Conn) (cw lw : Win) (pdim : Dim)
    (pv : String) (ddim : Dim) : List DriverRow :=
  runStore conn (fun fs => drillRows fs cw lw (dimSel pdim) pv (dimSel ddim))

/-! ### Percent delta and `_perform_sql_period_analysis` -/

/-- A Python float that may be `float('inf')` or `float('-inf')`
(finite values as exact rationals). -/
inductive PercentDelta
  | val (q : ℚ)
  | posInf
  | negInf
deriving DecidableEq, Repr

/-- Lines 591–598 of `_perform_sql_period_analysis`: `percentage_diff = 0;
if last_sales != 0: (diff/last_sales)*100; elif diff > 0: inf;
elif diff < 0: -inf`. -/
def percentageDiff (lastSales diff : ℚ) : PercentDelta :=
  if lastSales ≠ 0 then PercentDelta.val (diff / lastSales * 100)
  else if 0 < diff then PercentDelta.posInf
  else if diff < 0 then PercentDelta.negInf
  else PercentDelta.val 0

/-- The percent-delta sentinel in the spec's own words: `0` when both
totals are `0`; `+∞` when `comparison_total = 0 ∧ delta > 0`; `−∞` when
`comparison_total = 0 ∧ delta < 0`; otherwise
`delta / comparison_total * 100`. -/
def specPercentDelta (comparisonTotal delta : ℚ) : PercentDelta :=
  if comparisonTotal = 0 ∧ delta = 0 then PercentDelta.val 0
  else if comparisonTotal = 0 ∧ 0 < delta then PercentDelta.posInf
  else if comparisonTotal = 0 ∧ delta < 0 then PercentDelta.negInf
  else PercentDelta.val (delta / comparisonTotal * 100)

def dbErrMsg : DbErr → String
  | DbErr.noData m => m
  | DbErr.keyError => "KeyError"

/-- What `_perform_sql_period_analysis` can return: the success dictionary
(summary text and secondary digest omitted — they are presentational NLG),
or the `{'success': False, 'error': ...}` dictionary built by its
`except` handler. -/
inductive Outcome
  | success (currentSales lastSales diff : ℚ) (pd : PercentDelta)
      (drivers : List DriverRow)
  | errorDict (msg : String)
deriving DecidableEq, Repr

/-- The controller's `_perform_sql_period_analysis`: the whole body is wrapped in
`try/except`, so the function always *returns* (`Except.ok`); any
exception from the store wrappers is converted into an `errorDict`.  The
codomain keeps the `Except String` layer so that "the store failure
propagates as a raised exception" is statable. -/
def performSqlPeriodAnalysis (conn : Conn) (cw lw : Win) (dim : Dim) :
    Except String Outcome :=
  Except.ok (
    match getPeriodComparison conn cw lw with
    | Except.error e => Outcome.errorDict ("期間分析失敗: " ++ dbErrMsg e)
    | Except.ok rows =>
      match rows with
      | [] => Outcome.errorDict "期間比較查詢無結果"
      | (c, l) :: _ =>
        match getDriverAnalysis conn cw lw dim with
        | Except.error e =>
          Outcome.errorDict ("期間分析失敗: " ++ dbErrMsg e)
        | Except.ok drivers =>
          Outcome.success c l (c - l) (percentageDiff l (c - l)) drivers)

/-! ### Entity extraction and the `analyze_query` dispatch -/

def isCJK (c : Char) : Bool := 0x4e00 ≤ c.toNat && c.toNat ≤ 0x9fa5

def isWS (c : Char) : Bool :=
  c == ' ' || c == '\t' || c == '\n' || c == '\r' ||
    c == Char.ofNat 11 || c == Char.ofNat 12

/-- Lookahead `(?=\s|stop₁|stop₂|$)` of the entity patterns. -/
def lookOK (stops : List (List Char)) (after : List Char) : Bool :=
  match after with
  | [] => true
  | c :: _ => isWS c || stops.any (fun s => s.isPrefixOf after)

/-- Greedy `[一-龥]{2,max}` with backtracking against the
lookahead: try the longest candidate first, down to length 2. -/
def tryLens (rest : List Char) (stops : List (List Char)) :
    ℕ → Option (List Char × List Char)
  | 0 => none
  | k + 1 =>
    if k + 1 < 2 then none
    else
      if (rest.take (k + 1)).length = k + 1 &&
          (rest.take (k + 1)).all isCJK &&
          lookOK stops (rest.drop (k + 1)) then
        some (rest.take (k + 1), rest.drop (k + 1))
      else tryLens rest stops k

/-- Matcher for `kw\s*([一-龥]{2,max})(?=\s|stops|$)` — the
"name after keyword" extraction of `analyze_query`. -/
def matchEntity (kw : List Char) (maxLen : ℕ) (stops : List (List Char))
    (cs : List Char) : Option (List Char × List Char) :=
  if kw.isPrefixOf cs then
    tryLens ((cs.drop kw.length).dropWhile isWS) stops maxLen
  else none

/-- The `customer_pattern` extraction of `analyze_query` (line 369). -/
def customerFA (q : List Char) : List (List Char) :=
  findAll (fun cs =>
    matchEntity "客戶".toList 4 ["銷售額".toList, "業績".toList] cs) q

/-- The `staff_pattern` extraction of `analyze_query` (line 383). -/
def staffFA (q : List Char) : List (List Char) :=
  findAll (fun cs => matchEntity "業務員".toList 4 ["業績".toList] cs) q

/-- The `product_pattern` extraction of `analyze_query` (line 397). -/
def productFA (q : List Char) : List (List Char) :=
  findAll (fun cs => matchEntity "產品".toList 10 ["銷售額".toList] cs) q

/-- The `region_pattern` extraction of `analyze_query` (line 411). -/
def regionFA (q : List Char) : List (List Char) :=
  findAll (fun cs => matchEntity "地區".toList 4 ["銷售額".toList] cs) q

/-- Which handler `analyze_query` dispatches a query to. -/
inductive Route
  | customer (name : String)
  | staff (name : String)
  | product (name : String)
  | region (name : String)
  | quarter
  | period
  | failed
deriving DecidableEq, Repr

/-- The final stage of `analyze_query`: `_parse_query` (whose exception is
caught, yielding the error dictionary), then the quarter-vs-period split
`"Q" in query and ("季" in query or "quarter" in query.lower())`. -/
def dispatchTemporalStage (query : String) : Route :=
  match parseQuery query with
  | none => Route.failed
  | some _ =>
    if query.toList.contains 'Q' &&
        (containsSub "季".toList query.toList ||
          containsSub "quarter".toList (query.toList.map Char.toLower)) then
      Route.quarter
    else Route.period

/-- The region stage of `analyze_query` (lines 409–420): keyword guard,
extraction, then a membership test whose two arms call the same handler. -/
def dispatchRegionStage (kr : List String) (query : String) : Route :=
  if hasAnyWord query.toList ["地區".toList, "區域".toList, "region".toList,
      "地方".toList] then
    match regionFA query.toList with
    | m :: _ =>
      if (⟨m⟩ : String) ∈ kr then Route.region ⟨m⟩ else Route.region ⟨m⟩
    | [] => dispatchTemporalStage query
  else dispatchTemporalStage query

/-- The product stage of `analyze_query` (lines 395–406). -/
def dispatchProductStage (kp kr : List String) (query : String) : Route :=
  if hasAnyWord query.toList ["產品".toList, "商品".toList,
      "product".toList] then
    match productFA query.toList with
    | m :: _ =>
      if (⟨m⟩ : String) ∈ kp then Route.product ⟨m⟩ else Route.product ⟨m⟩
    | [] => dispatchRegionStage kr query
  else dispatchRegionStage kr query

/-- The staff stage of `analyze_query` (lines 381–392). -/
def dispatchStaffStage (ks kp kr : List String) (query : String) : Route :=
  if hasAnyWord query.toList ["業務員".toList, "銷售員".toList,
      "staff".toList, "業績".toList] then
    match staffFA query.toList with
    | m :: _ =>
      if (⟨m⟩ : String) ∈ ks then Route.staff ⟨m⟩ else Route.staff ⟨m⟩
    | [] => dispatchProductStage kp kr query
  else dispatchProductStage kp kr query

/-- The dispatch of `analyze_query` (lines 365–437), with the four
known-value sets fetched via `_get_dimension_values`.  In each entity
branch the source tests `if match in specific_xs:` and calls the *same*
handler with the same arguments in both arms; the `for` loop returns on
its first iteration. -/
def analyzeDispatch (kc ks kp kr : List String) (query : String) : Route :=
  if hasAnyWord query.toList ["客戶".toList, "customer".toList,
      "消費".toList] then
    match customerFA query.toList with
    | m :: _ =>
      if (⟨m⟩ : String) ∈ kc then Route.customer ⟨m⟩ else Route.customer ⟨m⟩
    | [] => dispatchStaffStage ks kp kr query
  else dispatchStaffStage ks kp kr query

/-- The dispatch with the membership tests removed (the refinement target:
the known-value sets are not consulted at all). -/
def dispatchRegionStageNC (query : String) : Route :=
  if hasAnyWord query.toList ["地區".toList, "區域".toList, "region".toList,
      "地方".toList] then
    match regionFA query.toList with
    | m :: _ => Route.region ⟨m⟩
    | [] => dispatchTemporalStage query
  else dispatchTemporalStage query

def dispatchProductStageNC (query : String) : Route :=
  if hasAnyWord query.toList ["產品".toList, "商品".toList,
      "product".toList] then
    match productFA query.toList with
    | m :: _ => Route.product ⟨m⟩
    | [] => dispatchRegionStageNC query
  else dispatchRegionStageNC query

def dispatchStaffStageNC (query : String) : Route :=
  if hasAnyWord query.toList ["業務員".toList, "銷售員".toList,
      "staff".toList, "業績".toList] then
    match staffFA query.toList with
    | m :: _ => Route.staff ⟨m⟩
    | [] => dispatchProductStageNC query
  else dispatchProductStageNC query

def analyzeDispatchNC (query : String) : Route :=
  if hasAnyWord query.toList ["客戶".toList, "customer".toList,
      "消費".toList] then
    match customerFA query.toList with
    | m :: _ => Route.customer ⟨m⟩
    | [] => dispatchStaffStageNC query
  else dispatchStaffStageNC query

/-! ### The specific-entity handlers -/

/-- One formatted row of a specific-entity result
(`{name, total_sales, total_quantity}`). -/
structure EntityRow where
  name : String
  totalSales : ℚ
  totalQuantity : ℤ
deriving DecidableEq, Repr

/-- The dictionary the specific-entity handlers return (`success`,
`message`, `exists`, `data`). -/
structure LookupOutcome where
  success : Bool
  message : String
  entityExists : Bool
  data : List EntityRow
deriving DecidableEq, Repr

/-- The check `_check_customer_exists`: `SELECT COUNT(*) FROM dim_customer WHERE
customer_name = name` compared with 0. -/
def checkCustomerExists (store : List String) (name : String) : Bool :=
  store.contains name

/-- The handler `_analyze_specific_customer_query`: the exists pre-check, then the
generated SQL's result rows (`sqlRows`, data owned by the external store);
an unknown or record-less entity is a *success* value with
`exists = False` and empty data. -/
def analyzeSpecificCustomerQuery (store : List String)
    (sqlRows : List EntityRow) (name : String) : LookupOutcome :=
  if !checkCustomerExists store name then
    ⟨true, "客戶「" ++ name ++ "」在資料庫中沒有找到相關的銷售記錄。",
      false, []⟩
  else
    match sqlRows with
    | [] =>
      ⟨true, "客戶「" ++ name ++ "」在資料庫中沒有找到相關的銷售記錄。",
        false, []⟩
    | rows => ⟨true, "查詢客戶「" ++ name ++ "」的銷售記錄成功。", true, rows⟩

/-- The handler `_analyze_specific_staff_query` (no exists pre-check). -/
def analyzeSpecificStaffQuery (sqlRows : List EntityRow) (name : String) :
    LookupOutcome :=
  match sqlRows with
  | [] =>
    ⟨true, "業務員「" ++ name ++ "」在資料庫中沒有找到相關的銷售記錄。",
      false, []⟩
  | rows => ⟨true, "查詢業務員「" ++ name ++ "」的銷售記錄成功。", true, rows⟩

/-- The handler `_analyze_specific_product_query` (no exists pre-check). -/
def analyzeSpecificProductQuery (sqlRows : List EntityRow) (name : String) :
    LookupOutcome :=
  match sqlRows with
  | [] =>
    ⟨true, "產品「" ++ name ++ "」在資料庫中沒有找到相關的銷售記錄。",
      false, []⟩
  | rows => ⟨true, "查詢產品「" ++ name ++ "」的銷售記錄成功。", true, rows⟩

/-- The handler `_analyze_specific_region_query` (no exists pre-check). -/
def analyzeSpecificRegionQuery (sqlRows : List EntityRow) (name : String) :
    LookupOutcome :=
  match sqlRows with
  | [] =>
    ⟨true, "地區「" ++ name ++ "」在資料庫中沒有找到相關的銷售記錄。",
      false, []⟩
  | rows => ⟨true, "查詢地區「" ++ name ++ "」的銷售記錄成功。", true, rows⟩

/-- The four known-value sets (`_get_dimension_values` per dimension). -/
structure Stores where
  customers : List String
  staffs : List String
  products : List String
  regions : List String
deriving DecidableEq, Repr

/-- The specific-entity outcome an `analyze_query` call produces: the
handler's dictionary when the dispatch routes to an entity handler, and
`none` when the query falls through to the temporal analyses. -/
def analyzeEntityOutcome (st : Stores) (sqlRows : List EntityRow)
    (query : String) : Option LookupOutcome :=
  match analyzeDispatch st.customers st.staffs st.products st.regions
      query with
  | Route.customer n => some (analyzeSpecificCustomerQuery st.customers
      sqlRows n)
  | Route.staff n => some (analyzeSpecificStaffQuery sqlRows n)
  | Route.product n => some (analyzeSpecificProductQuery sqlRows n)
  | Route.region n => some (analyzeSpecificRegionQuery sqlRows n)
  | _ => none

/-- The seed dimension values of `_generate_initial_data`. -/
def seedStores : Stores :=
  ⟨["台塑", "台泥", "世紀民生", "信立化學"],
   ["王小明", "李美麗", "趙大為"],
   ["高效能筆記型電腦", "無線藍牙耳機", "人體工學辦公椅", "智能運動手錶",
    "有機咖啡豆"],
   ["北區", "中區", "南區"]⟩

/-! ### Concrete store contents used in the theorems below -/

/-- Two fact rows for the same product, equal amounts, one in each window:
the driver deltas all cancel although fact rows exist. -/
def zeroDeltaFacts : List Fact :=
  [⟨"高效能筆記型電腦", "台塑", "王小明", "北區", 1, 100⟩,
   ⟨"高效能筆記型電腦", "台塑", "王小明", "北區", 10, 100⟩]

/-- Two fact rows in the current window whose amounts sum to zero
("zero sales", not "no data"). -/
def cancelFacts : List Fact :=
  [⟨"高效能筆記型電腦", "台塑", "王小明", "北區", 1, 100⟩,
   ⟨"高效能筆記型電腦", "台塑", "王小明", "北區", 2, -100⟩]

/-- A single fact row in the current window (nonzero driver delta). -/
def posDeltaFacts : List Fact :=
  [⟨"高效能筆記型電腦", "台塑", "王小明", "北區", 1, 100⟩]

/-! ### Theorems -/

theorem daysInMonth_bounds (y m : ℤ) :
    28 ≤ daysInMonth y m ∧ daysInMonth y m ≤ 31 := by
  unfold daysInMonth
  split_ifs <;> omega

theorem mkDate_some {y m d : ℤ} {dt : Date} (h : mkDate y m d = some dt) :
    dt = ⟨y, m, d⟩ ∧ 1 ≤ y ∧ y ≤ 9999 ∧ 1 ≤ m ∧ m ≤ 12 ∧ 1 ≤ d ∧
      d ≤ daysInMonth y m := by
  unfold mkDate at h
  split_ifs at h with hc
  exact ⟨((Option.some.injEq _ _).mp h).symm, hc.1, hc.2.1, hc.2.2.1,
    hc.2.2.2.1, hc.2.2.2.2.1, hc.2.2.2.2.2⟩

theorem firstOfMonthShift_some {y m k : ℤ} {d : Date}
    (h : firstOfMonthShift y m k = some d) :
    d = ⟨y + (m - 1 + k).ediv 12, (m - 1 + k).emod 12 + 1, 1⟩ ∧
      1 ≤ y + (m - 1 + k).ediv 12 ∧ y + (m - 1 + k).ediv 12 ≤ 9999 := by
  unfold firstOfMonthShift at h
  split_ifs at h with hc
  exact ⟨((Option.some.injEq _ _).mp h).symm, hc.1, hc.2⟩

theorem subDay_some {d e : Date} (h : subDay d = some e) :
    (2 ≤ d.day ∧ e = ⟨d.y, d.m, d.day - 1⟩) ∨
    (d.day < 2 ∧ 2 ≤ d.m ∧ e = ⟨d.y, d.m - 1, daysInMonth d.y (d.m - 1)⟩) ∨
    (d.day < 2 ∧ d.m < 2 ∧ 2 ≤ d.y ∧ e = ⟨d.y - 1, 12, 31⟩) := by
  unfold subDay at h
  split_ifs at h with h1 h2 h3
  · exact Or.inl ⟨h1, ((Option.some.injEq _ _).mp h).symm⟩
  · exact Or.inr (Or.inl ⟨by omega, h2, ((Option.some.injEq _ _).mp h).symm⟩)
  · exact Or.inr (Or.inr ⟨by omega, by omega, h3,
      ((Option.some.injEq _ _).mp h).symm⟩)

theorem emod12_facts (t : ℤ) :
    12 * t.ediv 12 + t.emod 12 = t ∧ 0 ≤ t.emod 12 ∧ t.emod 12 < 12 :=
  ⟨Int.ediv_add_emod t 12, Int.emod_nonneg t (by norm_num),
    Int.emod_lt_of_pos t (by norm_num)⟩

theorem monthWin_le {y m : ℤ} {s e : Date} (h : monthWin y m = some (s, e)) :
    Date.le s e := by
  unfold monthWin at h
  split at h
  · exact absurd h (by simp)
  rename_i sd hs
  split at h
  · exact absurd h (by simp)
  rename_i n hn
  split at h
  · exact absurd h (by simp)
  rename_i ed he
  have hpair : sd = s ∧ ed = e := by
    have hp := (Option.some.injEq _ _).mp h
    exact ⟨congrArg Prod.fst hp, congrArg Prod.snd hp⟩
  obtain ⟨rfl, rfl⟩ := hpair
  obtain ⟨rfl, hy1, hy2, hm1, hm2, -⟩ := mkDate_some hs
  obtain ⟨rfl, hn1, hn2⟩ := firstOfMonthShift_some hn
  have hdim := daysInMonth_bounds (y + (m - 1 + 1).ediv 12)
    ((m - 1 + 1).emod 12 + 1 - 1)
  have hmod := emod12_facts (m - 1 + 1)
  rcases subDay_some he with ⟨h1, rfl⟩ | ⟨h1, h2, rfl⟩ | ⟨h1, h2, h3, rfl⟩ <;>
    · unfold Date.le Date.rank
      simp only at *
      omega

theorem prevMonthWin_le {y m : ℤ} {s e : Date}
    (h : prevMonthWin y m = some (s, e)) : Date.le s e := by
  unfold prevMonthWin at h
  split at h
  · exact absurd h (by simp)
  rename_i sd hs
  split at h
  · exact absurd h (by simp)
  rename_i ed he
  have hpair : sd = s ∧ ed = e := by
    have hp := (Option.some.injEq _ _).mp h
    exact ⟨congrArg Prod.fst hp, congrArg Prod.snd hp⟩
  obtain ⟨rfl, rfl⟩ := hpair
  obtain ⟨rfl, hs1, hs2⟩ := firstOfMonthShift_some hs
  have hdim := daysInMonth_bounds y (m - 1)
  have hmod := emod12_facts (m - 1 + -1)
  rcases subDay_some he with ⟨h1, rfl⟩ | ⟨h1, h2, rfl⟩ | ⟨h1, h2, h3, rfl⟩ <;>
    · unfold Date.le Date.rank
      simp only at *
      omega

theorem yearWin_le {y : ℤ} {s e : Date} (h : yearWin y = some (s, e)) :
    Date.le s e := by
  unfold yearWin at h
  split at h
  · exact absurd h (by simp)
  rename_i sd hs
  split at h
  · exact absurd h (by simp)
  rename_i ed he
  have hpair : sd = s ∧ ed = e := by
    have hp := (Option.some.injEq _ _).mp h
    exact ⟨congrArg Prod.fst hp, congrArg Prod.snd hp⟩
  obtain ⟨rfl, rfl⟩ := hpair
  obtain ⟨rfl, -⟩ := mkDate_some hs
  obtain ⟨rfl, -⟩ := mkDate_some he
  unfold Date.le Date.rank
  simp only
  omega

theorem quarterWin_le {y q : ℤ} {s e : Date}
    (h : quarterWin y q = some (s, e)) : Date.le s e := by
  unfold quarterWin at h
  split at h
  · exact absurd h (by simp)
  rename_i sd hs
  split at h
  · exact absurd h (by simp)
  rename_i n hn
  split at h
  · exact absurd h (by simp)
  rename_i ed he
  have hpair : sd = s ∧ ed = e := by
    have hp := (Option.some.injEq _ _).mp h
    exact ⟨congrArg Prod.fst hp, congrArg Prod.snd hp⟩
  obtain ⟨rfl, rfl⟩ := hpair
  obtain ⟨rfl, hy1, hy2, hm1, hm2, -⟩ := mkDate_some hs
  obtain ⟨rfl, hn1, hn2⟩ := firstOfMonthShift_some hn
  have hdim := daysInMonth_bounds (y + (3 * (q - 1) + 1 - 1 + 3).ediv 12)
    ((3 * (q - 1) + 1 - 1 + 3).emod 12 + 1 - 1)
  have hmod := emod12_facts (3 * (q - 1) + 1 - 1 + 3)
  rcases subDay_some he with ⟨h1, rfl⟩ | ⟨h1, h2, rfl⟩ | ⟨h1, h2, h3, rfl⟩ <;>
    · unfold Date.le Date.rank
      simp only at *
      omega

/-! ### Window-ordering lemmas for the cascade branches -/

theorem combineWins_le {w1 w2 : Option (Date × Date)} {lab : String}
    {p : Period} (h : combineWins w1 w2 lab = some p)
    (h1 : ∀ s e, w1 = some (s, e) → Date.le s e)
    (h2 : ∀ s e, w2 = some (s, e) → Date.le s e) :
    Date.le p.curStart p.curEnd ∧ Date.le p.lastStart p.lastEnd := by
  cases w1 with
  | none => exact absurd h (by simp [combineWins])
  | some pr1 =>
  obtain ⟨cs, ce⟩ := pr1
  cases w2 with
  | none => exact absurd h (by simp [combineWins])
  | some pr2 =>
  obtain ⟨ls, le⟩ := pr2
  simp only [combineWins] at h
  have hp : Period.mk cs ce ls le lab = p := (Option.some.injEq _ _).mp h
  subst hp
  exact ⟨h1 cs ce rfl, h2 ls le rfl⟩

theorem twoMonthBranch_le {a b : ℤ × ℤ} {p : Period}
    (h : twoMonthBranch a b = some p) :
    Date.le p.curStart p.curEnd ∧ Date.le p.lastStart p.lastEnd :=
  combineWins_le h (fun _ _ hh => monthWin_le hh)
    (fun _ _ hh => monthWin_le hh)

theorem oneMonthBranch_le {a : ℤ × ℤ} {p : Period}
    (h : oneMonthBranch a = some p) :
    Date.le p.curStart p.curEnd ∧ Date.le p.lastStart p.lastEnd :=
  combineWins_le h (fun _ _ hh => monthWin_le hh)
    (fun _ _ hh => prevMonthWin_le hh)

theorem twoYearBranch_le {a b : ℤ} {p : Period}
    (h : twoYearBranch a b = some p) :
    Date.le p.curStart p.curEnd ∧ Date.le p.lastStart p.lastEnd :=
  combineWins_le h (fun _ _ hh => yearWin_le hh)
    (fun _ _ hh => yearWin_le hh)

theorem oneYearBranch_le {a : ℤ} {p : Period}
    (h : oneYearBranch a = some p) :
    Date.le p.curStart p.curEnd ∧ Date.le p.lastStart p.lastEnd :=
  combineWins_le h (fun _ _ hh => yearWin_le hh)
    (fun _ _ hh => yearWin_le hh)

theorem twoPureQBranch_le {a b : ℤ} {p : Period}
    (h : twoPureQBranch a b = some p) :
    Date.le p.curStart p.curEnd ∧ Date.le p.lastStart p.lastEnd :=
  combineWins_le h (fun _ _ hh => quarterWin_le hh)
    (fun _ _ hh => quarterWin_le hh)

theorem onePureQBranch_le {a : ℤ} {p : Period}
    (h : onePureQBranch a = some p) :
    Date.le p.curStart p.curEnd ∧ Date.le p.lastStart p.lastEnd :=
  combineWins_le h (fun _ _ hh => quarterWin_le hh)
    (fun _ _ hh => quarterWin_le hh)

theorem twoYQBranch_le {a b : ℤ × ℤ} {p : Period}
    (h : twoYQBranch a b = some p) :
    Date.le p.curStart p.curEnd ∧ Date.le p.lastStart p.lastEnd :=
  combineWins_le h (fun _ _ hh => quarterWin_le hh)
    (fun _ _ hh => quarterWin_le hh)

theorem yqRelBranch_le {a : ℤ × ℤ} {r : RelTag × ℤ} {p : Period}
    (h : yqRelBranch a r = some p) :
    Date.le p.curStart p.curEnd ∧ Date.le p.lastStart p.lastEnd :=
  combineWins_le h (fun _ _ hh => quarterWin_le hh)
    (fun _ _ hh => quarterWin_le hh)

theorem oneYQBranch_le {a : ℤ × ℤ} {p : Period}
    (h : oneYQBranch a = some p) :
    Date.le p.curStart p.curEnd ∧ Date.le p.lastStart p.lastEnd :=
  combineWins_le h (fun _ _ hh => quarterWin_le hh)
    (fun _ _ hh => quarterWin_le hh)

theorem quarterFallback_le {p : Period} (h : quarterFallback = some p) :
    Date.le p.curStart p.curEnd ∧ Date.le p.lastStart p.lastEnd := by
  have hq : quarterFallback = some ⟨⟨2025, 7, 1⟩, ⟨2025, 9, 30⟩,
      ⟨2025, 4, 1⟩, ⟨2025, 6, 30⟩, "2025年Q3 vs 上季"⟩ := by decide
  rw [hq] at h
  have hp := (Option.some.injEq _ _).mp h
  subst hp
  exact ⟨by decide, by decide⟩

theorem defaultPeriod_le {p : Period} (h : defaultPeriod = some p) :
    Date.le p.curStart p.curEnd ∧ Date.le p.lastStart p.lastEnd := by
  have hq : defaultPeriod = some ⟨⟨2025, 8, 1⟩, ⟨2025, 8, 31⟩,
      ⟨2025, 7, 1⟩, ⟨2025, 7, 31⟩, "2025年8月 vs 上月"⟩ := by decide
  rw [hq] at h
  have hp := (Option.some.injEq _ _).mp h
  subst hp
  exact ⟨by decide, by decide⟩

theorem resolvePeriod_le {cs : List Char} {p : Period}
    (h : resolvePeriod cs = some p) :
    Date.le p.curStart p.curEnd ∧ Date.le p.lastStart p.lastEnd := by
  unfold resolvePeriod at h
  split at h
  · exact twoMonthBranch_le h
  · exact oneMonthBranch_le h
  split at h
  · exact twoYearBranch_le h
  · exact oneYearBranch_le h
  split at h
  · exact twoMonthBranch_le h
  · exact oneMonthBranch_le h
  split at h
  · split at h
    · exact twoPureQBranch_le h
    · exact onePureQBranch_le h
    split at h
    · exact twoYQBranch_le h
    · exact yqRelBranch_le h
    · exact oneYQBranch_le h
    · exact quarterFallback_le h
  · exact defaultPeriod_le h

/-! ### Helper lemmas for the store theorems -/

theorem sumIn_zero_of_countEither_zero (fs : List Fact) (cw lw : Win)
    (h : countEither fs cw lw = 0) : sumIn fs cw = 0 ∧ sumIn fs lw = 0 := by
  induction fs with
  | nil => simp [sumIn]
  | cons f t ih =>
    unfold countEither at h ih
    rw [List.filter_cons] at h
    by_cases hf : (inWin cw f.date || inWin lw f.date) = true
    · rw [if_pos hf] at h
      simp at h
    · rw [if_neg hf] at h
      have hcw : inWin cw f.date = false := by
        cases hc : inWin cw f.date <;> simp_all
      have hlw : inWin lw f.date = false := by
        cases hc : inWin lw f.date <;> simp_all
      have ht := ih h
      unfold sumIn at ht ⊢
      simp only [List.map_cons, List.sum_cons, hcw, hlw, if_false,
        Bool.false_eq_true]
      simpa using ht

theorem insertionSort_eq_nil {α : Type} {r : α → α → Prop} [DecidableRel r]
    {l : List α} (h : l.insertionSort r = []) : l = [] := by
  have hlen := congrArg List.length h
  rw [List.length_insertionSort] at hlen
  exact List.length_eq_zero.mp hlen

theorem driverRows_eq_nil_iff (fs : List Fact) (cw lw : Win)
    (sel : Fact → String) :
    driverRows fs cw lw sel = [] ↔
      ∀ v ∈ groupKeys sel fs,
        groupSum sel v fs cw = groupSum sel v fs lw := by
  unfold driverRows
  constructor
  · intro h v hv
    have hall := List.filter_eq_nil_iff.mp (insertionSort_eq_nil h)
    have hmem : DriverRow.mk v (groupSum sel v fs cw) (groupSum sel v fs lw)
        (groupSum sel v fs cw - groupSum sel v fs lw) ∈
        (groupKeys sel fs).map (fun v =>
          DriverRow.mk v (groupSum sel v fs cw) (groupSum sel v fs lw)
            (groupSum sel v fs cw - groupSum sel v fs lw)) :=
      List.mem_map_of_mem _ hv
    have := hall _ hmem
    simp only [decide_eq_true_eq, not_lt, abs_nonpos_iff, sub_eq_zero] at this
    exact this
  · intro h
    have hnil : (((groupKeys sel fs).map (fun v =>
        DriverRow.mk v (groupSum sel v fs cw) (groupSum sel v fs lw)
          (groupSum sel v fs cw - groupSum sel v fs lw))).filter
        (fun r => decide (0 < |r.delta|))) = [] := by
      rw [List.filter_eq_nil_iff]
      intro r hr
      obtain ⟨v, hv, rfl⟩ := List.mem_map.mp hr
      simp only [decide_eq_true_eq, not_lt, abs_nonpos_iff, sub_eq_zero]
      exact h v hv
    rw [hnil]
    rfl

/-! ### The claim theorems -/

/-- C7: for `"2025/07"` (one numeric year/month match, the
highest-priority grammar; the internal reference date is the claim's
2025-08-31 and is unused in this branch), the resolver returns current
window 2025-07-01..2025-07-31, comparison window 2025-06-01..2025-06-30
(the previous calendar month), and period label `"2025年07月 vs 上月"`. -/
theorem resolve_numeric_month_example :
    parseQuery "2025/07" = some ⟨⟨2025, 7, 1⟩, ⟨2025, 7, 31⟩, ⟨2025, 6, 1⟩,
      ⟨2025, 6, 30⟩, "2025年07月 vs 上月", Dim.product, "產品"⟩ := by
  decide

/-- C1 (the code at the failing input): on `"2025年Q2 vs 去年Q2"` the
pure-quarter pattern `Q(\d)(?!\d{4}年)` (a lookahead where only a
lookbehind excludes year-prefixed quarters) matches both quarter mentions,
so the two-pure-quarter branch fires and anchors *both* windows to the
fixed reference year: the resolver returns comparison = Q2 of 2025, not
Q2 of 2024 as the relative-year rule — implemented in the unreachable
`quarter_matches`/`relative_matches` branch — specifies. -/
theorem resolve_relative_quarter_bug :
    parseQuery "2025年Q2 vs 去年Q2" = some ⟨⟨2025, 4, 1⟩, ⟨2025, 6, 30⟩,
      ⟨2025, 4, 1⟩, ⟨2025, 6, 30⟩, "Q2 vs Q2", Dim.product, "產品"⟩ := by
  decide

/-- C8: whenever the resolver succeeds, both produced windows satisfy
`start ≤ end`, in every grammar branch of the cascade including all
defaults and fallbacks. -/
theorem parse_query_windows_ordered (query : String) (r : ParsedResult)
    (h : parseQuery query = some r) :
    Date.le r.curStart r.curEnd ∧ Date.le r.lastStart r.lastEnd := by
  unfold parseQuery at h
  obtain ⟨p, hp, rfl⟩ := Option.map_eq_some'.mp h
  exact resolvePeriod_le hp

/-- Witness for C8 at the concrete input `"2025/07"`. -/
theorem parse_query_windows_ordered_witness :
    Date.le ⟨2025, 7, 1⟩ ⟨2025, 7, 31⟩ ∧
      Date.le ⟨2025, 6, 1⟩ ⟨2025, 6, 30⟩ :=
  parse_query_windows_ordered "2025/07"
    ⟨⟨2025, 7, 1⟩, ⟨2025, 7, 31⟩, ⟨2025, 6, 1⟩, ⟨2025, 6, 30⟩,
      "2025年07月 vs 上月", Dim.product, "產品"⟩ (by decide)

/-- C5 (counterexample): the reference date is not caller-supplied.  For
the no-temporal-token input `"hello"` and a caller reference date of
2024-03-15, the claim requires the current window to be that date's month
(start 2024-03-01); the resolver instead anchors to the internal constant
`datetime(2025, 8, 31)` and returns start 2025-08-01. -/
theorem reference_date_not_injectable :
    (parseQueryClock ⟨2024, 3, 15⟩ "hello").map ParsedResult.curStart =
        some ⟨2025, 8, 1⟩ ∧
      (⟨2025, 8, 1⟩ : Date) ≠ (⟨2024, 3, 1⟩ : Date) := by
  decide

/-- C5 (amended): the resolver's reference date is the fixed internal
constant 2025-08-31, not an injectable parameter: the resolved windows are
a function of the raw text alone — identical for every ambient date — and
the global fallback anchors to August 2025. -/
theorem reference_date_fixed_internal :
    (∀ n1 n2 : Date, ∀ q : String,
        parseQueryClock n1 q = parseQueryClock n2 q) ∧
      fixedToday = ⟨2025, 8, 31⟩ ∧
      parseQuery "hello" = some ⟨⟨2025, 8, 1⟩, ⟨2025, 8, 31⟩, ⟨2025, 7, 1⟩,
        ⟨2025, 7, 31⟩, "2025年8月 vs 上月", Dim.product, "產品"⟩ :=
  ⟨fun _ _ _ => rfl, rfl, by decide⟩

/-- C3: the computed percent delta agrees with the spec's three-way
sentinel on every pair of totals: `0` when both the comparison total and
the delta are `0`; `+∞` when the comparison total is `0` and the delta is
positive; `−∞` when it is `0` and the delta is negative; otherwise
`delta / comparison_total * 100`. -/
theorem percent_delta_sentinel (c d : ℚ) :
    percentageDiff c d = specPercentDelta c d := by
  unfold percentageDiff specPercentDelta
  by_cases hc : c = 0
  · subst hc
    rcases lt_trichotomy d 0 with hd | hd | hd
    · simp [hd, not_lt.mpr hd.le, ne_of_lt hd]
    · subst hd; simp
    · simp [hd, ne_of_gt hd]
  · simp [hc]

/-- C10: the membership test of an extracted candidate against the
dimension's known-value set has no effect: for every choice of known-value
sets and every query, the dispatch of `analyze_query` routes exactly as
the dispatch with the membership tests deleted. -/
theorem membership_test_no_effect (kc ks kp kr : List String)
    (query : String) :
    analyzeDispatch kc ks kp kr query = analyzeDispatchNC query := by
  simp only [analyzeDispatch, analyzeDispatchNC, dispatchStaffStage,
    dispatchStaffStageNC, dispatchProductStage, dispatchProductStageNC,
    dispatchRegionStage, dispatchRegionStageNC, ite_self]

/-- C9 (counterexample): for the claim's own example query
`"客戶 不存在客戶X"` the bounded extraction pattern
`客戶\s*([一-龥]{2,4})(?=\s|銷售額|業績|$)` captures nothing (the name has
five CJK characters followed by a Latin `X`), so `analyze_query` performs
no entity lookup at all — the query falls through to the general period
analysis and no `exists = false` result is produced. -/
theorem unknown_entity_example_bypasses_lookup :
    analyzeDispatch seedStores.customers seedStores.staffs
        seedStores.products seedStores.regions "客戶 不存在客戶X" =
        Route.period ∧
      analyzeEntityOutcome seedStores [] "客戶 不存在客戶X" = none := by
  decide

/-- C9 (amended): for every query containing a customer keyword whose
extracted candidate (2–4 CJK characters after `客戶`, bounded by the
pattern's lookahead) is not in the known-value set, the lookup returns a
structured success value with `exists = false` and an empty row list —
an unknown extracted entity is never an error. -/
theorem unknown_customer_candidate_lookup (st : Stores)
    (sqlRows : List EntityRow) (query : String) (m : List Char)
    (ms : List (List Char))
    (hkw : hasAnyWord query.toList ["客戶".toList, "customer".toList,
      "消費".toList] = true)
    (hfa : customerFA query.toList = m :: ms)
    (hunk : (⟨m⟩ : String) ∉ st.customers) :
    analyzeEntityOutcome st sqlRows query = some ⟨true,
      "客戶「" ++ (⟨m⟩ : String) ++ "」在資料庫中沒有找到相關的銷售記錄。",
      false, []⟩ := by
  unfold analyzeEntityOutcome analyzeDispatch
  rw [hkw]
  simp only [if_true, hfa, ite_self]
  unfold analyzeSpecificCustomerQuery checkCustomerExists
  have hc : st.customers.contains (⟨m⟩ : String) = false := by
    simpa using hunk
  rw [hc]
  rfl

/-- Witness for C9 (amended) at `"客戶 不存在"` against the seeded
customer dimension. -/
theorem unknown_customer_candidate_lookup_witness :
    analyzeEntityOutcome seedStores [] "客戶 不存在" = some ⟨true,
      "客戶「不存在」在資料庫中沒有找到相關的銷售記錄。", false, []⟩ :=
  unknown_customer_candidate_lookup seedStores [] "客戶 不存在"
    "不存在".toList [] (by decide) (by decide) (by decide)

/-- C6 (counterexample): a store failure raised during an analyze call
does not propagate unchanged — `_perform_sql_period_analysis` *returns* a
`{'success': False, 'error': ...}` dictionary instead of re-raising the
store's exception. -/
theorem store_failure_converted_to_error_dict :
    performSqlPeriodAnalysis (Except.error "connection refused") ⟨0, 5⟩
        ⟨6, 15⟩ Dim.product =
        Except.ok (Outcome.errorDict "期間分析失敗: KeyError") ∧
      performSqlPeriodAnalysis (Except.error "connection refused") ⟨0, 5⟩
        ⟨6, 15⟩ Dim.product ≠ Except.error "connection refused" := by
  decide

/-- C6 (amended): a store failure is masked, not propagated:
`execute_query` converts any failing query into an empty result frame, and
the period-analysis wrapper catches the ensuing exception and returns an
error dictionary; no exception escapes (no retry is modelled or
performed — each store call is issued once). -/
theorem store_failure_masked (e : String) (cw lw : Win) (dim : Dim) :
    (runStore (Except.error e)
        (fun fs => driverRows fs cw lw (dimSel dim)) = []) ∧
      performSqlPeriodAnalysis (Except.error e) cw lw dim =
        Except.ok (Outcome.errorDict "期間分析失敗: KeyError") :=
  ⟨rfl, rfl⟩

/-- C2 (counterexample): a drill-down result may contain a row with
`delta = 0` — the drill-down SQL has no `HAVING ABS("差異") > 0` clause.
With one fact row in each window for the same product and region, the
drill-down by region returns the region row with delta `0`. -/
theorem drill_down_keeps_zero_delta :
    getDrillDownAnalysis (Except.ok zeroDeltaFacts) ⟨0, 5⟩ ⟨6, 15⟩
        Dim.product "高效能筆記型電腦" Dim.region =
      [⟨"北區", 100, 100, 0⟩] := by
  norm_num [getDrillDownAnalysis, runStore, drillRows, zeroDeltaFacts,
    dimSel, groupKeys, groupSum, inWin, List.insertionSort,
    List.orderedInsert, List.filter, List.foldl]

/-- C2 (amended): every DriverRow list returned by the driver-analysis
operation contains no row with `delta = 0` and is ordered by `|delta|`
descending; the drill-down operation's rows are ordered by `|delta|`
descending but are *not* filtered (rows with `delta = 0` may appear). -/
theorem driver_rows_nonzero_sorted (conn : Conn) (cw lw : Win) (dim : Dim)
    (pdim : Dim) (pv : String) (ddim : Dim) (rows : List DriverRow)
    (h : getDriverAnalysis conn cw lw dim = Except.ok rows) :
    (∀ r ∈ rows, r.delta ≠ 0) ∧ List.Sorted absDeltaGE rows ∧
      List.Sorted absDeltaGE (getDrillDownAnalysis conn cw lw pdim pv
        ddim) := by
  unfold getDriverAnalysis at h
  split_ifs at h with hemp
  have hrows : runStore conn
      (fun fs => driverRows fs cw lw (dimSel dim)) = rows :=
    (Except.ok.injEq _ _).mp h
  refine ⟨?_, ?_, ?_⟩
  · intro r hr
    cases conn with
    | error e =>
      rw [← hrows] at hr
      simp [runStore] at hr
    | ok fs =>
      rw [← hrows] at hr
      simp only [runStore] at hr
      unfold driverRows at hr
      rw [List.mem_insertionSort] at hr
      have hp := List.of_mem_filter hr
      simp only [decide_eq_true_eq] at hp
      exact fun h0 => by simp [h0] at hp
  · cases conn with
    | error e =>
      rw [← hrows]
      simp [runStore]
    | ok fs =>
      rw [← hrows]
      simp only [runStore]
      unfold driverRows
      exact List.sorted_insertionSort absDeltaGE _
  · cases conn with
    | error e => simp [getDrillDownAnalysis, runStore]
    | ok fs =>
      simp only [getDrillDownAnalysis, runStore]
      unfold drillRows
      exact List.sorted_insertionSort absDeltaGE _

/-- Witness for C2 (amended) at a store with one fact row (driver list
`[⟨高效能筆記型電腦, 100, 0, 100⟩]`). -/
theorem driver_rows_nonzero_sorted_witness :
    (∀ r ∈ [DriverRow.mk "高效能筆記型電腦" 100 0 100], r.delta ≠ 0) ∧
      List.Sorted absDeltaGE [DriverRow.mk "高效能筆記型電腦" 100 0 100] ∧
      List.Sorted absDeltaGE (getDrillDownAnalysis (Except.ok posDeltaFacts)
        ⟨0, 5⟩ ⟨6, 15⟩ Dim.product "高效能筆記型電腦" Dim.region) :=
  driver_rows_nonzero_sorted (Except.ok posDeltaFacts) ⟨0, 5⟩ ⟨6, 15⟩
    Dim.product Dim.product "高效能筆記型電腦" Dim.region
    [DriverRow.mk "高效能筆記型電腦" 100 0 100]
    (by norm_num [getDriverAnalysis, runStore, driverRows, posDeltaFacts,
      dimSel, groupKeys, groupSum, inWin, List.insertionSort,
      List.orderedInsert, List.filter, List.foldl])

/-- C4 (counterexample): the driver-rows operation raises the no-data
error although the requested window combination contains two fact rows —
their per-group deltas cancel, so the `HAVING`-filtered frame is empty. -/
theorem driver_no_data_despite_rows :
    getDriverAnalysis (Except.ok zeroDeltaFacts) ⟨0, 5⟩ ⟨6, 15⟩
        Dim.product =
        Except.error (DbErr.noData "指定時間範圍內無維度的銷售數據") ∧
      countEither zeroDeltaFacts ⟨0, 5⟩ ⟨6, 15⟩ = 2 := by
  constructor
  · have hnil : driverRows zeroDeltaFacts ⟨0, 5⟩ ⟨6, 15⟩
        (dimSel Dim.product) = [] := by
      norm_num [driverRows, zeroDeltaFacts, dimSel, groupKeys, groupSum,
        inWin, List.insertionSort, List.orderedInsert, List.filter,
        List.foldl]
    unfold getDriverAnalysis
    simp [runStore, hnil]
  · decide

/-- C4 (amended): the period-totals operation raises the distinguished
no-data error iff the window combination contains zero fact rows, and
returns the valid numeric totals (in particular `0`) whenever fact rows
exist; the driver-rows operation raises the no-data error iff *every*
dimension group's delta is zero — which also happens with fact rows
present. -/
theorem no_data_error_iff (fs : List Fact) (cw lw : Win) (dim : Dim) :
    (getPeriodComparison (Except.ok fs) cw lw =
        Except.error (DbErr.noData "指定時間範圍內無銷售數據") ↔
      countEither fs cw lw = 0) ∧
    (countEither fs cw lw ≠ 0 →
      getPeriodComparison (Except.ok fs) cw lw =
        Except.ok [(sumIn fs cw, sumIn fs lw)]) ∧
    (getDriverAnalysis (Except.ok fs) cw lw dim =
        Except.error (DbErr.noData "指定時間範圍內無維度的銷售數據") ↔
      ∀ v ∈ groupKeys (dimSel dim) fs,
        groupSum (dimSel dim) v fs cw = groupSum (dimSel dim) v fs lw) := by
  refine ⟨?_, ?_, ?_⟩
  · unfold getPeriodComparison
    simp only [runStore, List.isEmpty_cons, Bool.false_or, headBothZero]
    by_cases hz : sumIn fs cw = 0 ∧ sumIn fs lw = 0
    · rw [if_pos (by exact decide_eq_true hz)]
      by_cases hc : countEither fs cw lw = 0
      · simp [hc]
      · simp [hc]
    · rw [if_neg (by simpa using hz)]
      constructor
      · intro h; exact absurd h (by simp)
      · intro hc
        exact absurd (sumIn_zero_of_countEither_zero fs cw lw hc) hz
  · intro hc
    unfold getPeriodComparison
    simp only [runStore, List.isEmpty_cons, Bool.false_or, headBothZero]
    by_cases hz : sumIn fs cw = 0 ∧ sumIn fs lw = 0
    · rw [if_pos (by exact decide_eq_true hz)]
      simp [hc]
    · rw [if_neg (by simpa using hz)]
  · unfold getDriverAnalysis
    simp only [runStore]
    rw [← driverRows_eq_nil_iff fs cw lw (dimSel dim)]
    by_cases hn : driverRows fs cw lw (dimSel dim) = []
    · simp [hn]
    · rw [if_neg (by simpa using hn)]
      constructor
      · intro h; exact absurd h (by simp)
      · intro h; exact absurd h hn

/-- Witness for C4 (amended): fact rows whose amounts sum to zero yield
the valid numeric result `(0, 0)`, not an error. -/
theorem no_data_error_iff_witness :
    getPeriodComparison (Except.ok cancelFacts) ⟨0, 5⟩ ⟨6, 15⟩ =
      Except.ok [(0, 0)] := by
  have h := (no_data_error_iff cancelFacts ⟨0, 5⟩ ⟨6, 15⟩ Dim.product).2.1
    (by decide)
  rw [h]
  norm_num [sumIn, cancelFacts, inWin]

end MyAI
